import Mathlib

/-
Shallow embedding of the sch schedule-expression front end
(src/lib/ScheduleBuilder.js): tokenizer, recursive-descent parser and
group compiler.  The helper modules required by ScheduleBuilder.js
(Token.js, Range.js, Argument.js, RuleGroup.js, Common.js) are not part
of the sources; their data shapes and classification rules are modelled
from the specification and are marked as such below.

Errors are modelled as the raw diagnostic message; the source wraps the
message together with a source-context snippet and caret line
(ScheduleBuilder.prototype.syntaxError), which only affects
presentation, not which error is raised.
-/

namespace Sch

abbrev Err := String

/-- Modelled from the spec: Token.js is not part of the sources.  A token
carries its string value, its source offset and the isSpecial flag set at
creation for the special characters. -/
structure Token where
  index : Nat
  value : String
  isSpecial : Bool := false
deriving DecidableEq, Repr

/-- ASCII lower-casing by character list (the JavaScript toLowerCase on
the identifiers of this grammar); stated over the character list so that
every definition below stays kernel-reducible. -/
def lowerStr (s : String) : String :=
  String.mk (s.toList.map Char.toLower)

/-- Modelled from the spec: weekday names with their 1-7 ordinals
(Monday = 1 .. Sunday = 7, matching the spec's FRI-MON example which
compiles to low 4, high 0 after the zero-based shift). -/
def dayKeywords : List (String × Int) :=
  [("mon", 1), ("monday", 1), ("tue", 2), ("tuesday", 2),
   ("wed", 3), ("wednesday", 3), ("thu", 4), ("thursday", 4),
   ("fri", 5), ("friday", 5), ("sat", 6), ("saturday", 6),
   ("sun", 7), ("sunday", 7)]

/-- Modelled from the spec: a token is a day keyword when its lower-cased
value is a recognized weekday name. -/
def Token.isDayKeyword (t : Token) : Bool :=
  (dayKeywords.lookup (lowerStr t.value)).isSome

/-- Modelled from the spec: resolve a day keyword to its 1-7 ordinal. -/
def Token.toDayOfWeek (t : Token) : Int :=
  (dayKeywords.lookup (lowerStr t.value)).getD 0

/-- Modelled from the spec: Token classification is determined from the
token text (spec section 4.1).  An expression token is an
identifier-shaped (purely alphabetic) token that is not a weekday name:
unknown names such as foo must parse and reach the compiler's Unknown
expression error (spec section 8), while weekday names must be available
as arguments (FRI-MON), so they cannot also classify as expressions
(buildArgument tests isExpression before isDayKeyword). -/
def Token.isExpression (t : Token) : Bool :=
  t.value ≠ "" ∧ t.value.toList.all Char.isAlpha ∧ ¬ t.isDayKeyword

/-- Digit-list accumulator for jsNumber. -/
def jsNumberGo : List Char → Nat → Option Nat
  | [], acc => some acc
  | c :: cs, acc =>
    if c.isDigit then jsNumberGo cs (acc * 10 + (c.toNat - 48)) else none

/-- Numeric literals of the grammar are unsigned decimal digit strings
(signs are separate special tokens); this models the JavaScript
Number(...) conversion on the token values that can occur in that
position, returning none for NaN. -/
def jsNumber (s : String) : Option Int :=
  match s.toList with
  | [] => none
  | cs =>
    match jsNumberGo cs 0 with
    | some n => some (n : Int)
    | none => none

/-- JavaScript ToInt32, as performed by the `| 0` coercions in
compileGroup. -/
def toInt32 (n : Int) : Int :=
  (n + 2 ^ 31) % 2 ^ 32 - 2 ^ 31

/-- Modelled from the spec: the external days-in-month lookup
(Common.daysInMonth, not part of the sources); the month argument is
zero-indexed and February admits the leap day. -/
def daysInMonth (m : Int) : Int :=
  if m = 0 then 31 else if m = 1 then 29 else if m = 2 then 31
  else if m = 3 then 30 else if m = 4 then 31 else if m = 5 then 30
  else if m = 6 then 31 else if m = 7 then 31 else if m = 8 then 30
  else if m = 9 then 31 else if m = 10 then 30 else 31

/-- Modelled from the spec: a month/day pair.  The source reuses the
Range class for this (new Range(month, day)) with month/day reading the
low/high slots; we give it its own structure. -/
structure DateValue where
  month : Int
  day : Int
deriving DecidableEq, Repr

/-- The value carried by one parsed argument, tagged as in the source's
Argument.type strings: number, range, days, dates, wildcard. -/
inductive ArgValue where
  | number (n : Int)
  | range (low high : Int)
  | days (low high : Int)
  | dates (low high : DateValue)
  | wildcard
deriving DecidableEq, Repr

/-- Modelled from the spec: Argument.js is not part of the sources.  One
normalized operand of a field expression; the diagnostic firstToken slot
is dropped because errors are modelled as messages only. -/
structure Argument where
  value : ArgValue
  isExclude : Bool
  modulus : Option Int
deriving DecidableEq, Repr

/-- An abstract-syntax-tree node: either a name(args) expression or a
literal argument (the source distinguishes them by cmd.type). -/
inductive AstNode where
  | expr (name : String) (arguments : List AstNode)
  | arg (a : Argument)

/-- Modelled from the spec: Range.js is not part of the sources.  A
compiled (low, high) pair with the split flag and optional modulus; the
constructor defaults mirror new Range(low, high). -/
structure Range (α : Type) where
  low : α
  high : α
  split : Bool := false
  modulus : Option Int := none
deriving DecidableEq, Repr

/-- Modelled from the spec: RuleGroup.js is not part of the sources.  A
field is `none` while unset (a falsy slot in the source) and `some list`
once rule[prop] = [] has been assigned and pushed to. -/
structure RuleGroup where
  seconds : Option (List (Range Int)) := none
  secondsExclude : Option (List (Range Int)) := none
  minutes : Option (List (Range Int)) := none
  minutesExclude : Option (List (Range Int)) := none
  hours : Option (List (Range Int)) := none
  hoursExclude : Option (List (Range Int)) := none
  daysOfWeek : Option (List (Range Int)) := none
  daysOfWeekExclude : Option (List (Range Int)) := none
  daysOfMonth : Option (List (Range Int)) := none
  daysOfMonthExclude : Option (List (Range Int)) := none
  dates : Option (List (Range DateValue)) := none
  datesExclude : Option (List (Range DateValue)) := none
deriving DecidableEq, Repr

/-- ScheduleBuilder.prototype.tokenize, recursing over the characters.
Whitespace flushes the pending token; each special character flushes and
is emitted as its own special token; other characters accumulate. -/
def tokenizeGo : List Char → Nat → Token → List Token → List Token
  | [], _, token, acc =>
    if token.value ≠ "" then acc ++ [token] else acc
  | c :: cs, i, token, acc =>
    if c = ' ' ∨ c = '\t' ∨ c = '\n' ∨ c = '\r' then
      tokenizeGo cs (i + 1) ⟨i + 1, "", false⟩
        (if token.value ≠ "" then acc ++ [token] else acc)
    else if c = '(' ∨ c = ')' ∨ c = '-' ∨ c = ',' ∨ c = '!' ∨ c = '/' ∨ c = '%' then
      tokenizeGo cs (i + 1) ⟨i + 1, "", false⟩
        ((if token.value ≠ "" then acc ++ [token] else acc) ++
          [⟨i, String.singleton c, true⟩])
    else
      tokenizeGo cs (i + 1) ⟨token.index, token.value.push c, token.isSpecial⟩ acc

/-- ScheduleBuilder.prototype.tokenize on the whole input string. -/
def tokenize (s : String) : List Token :=
  tokenizeGo s.toList 0 ⟨0, "", false⟩ []

/-- Error raised by ScheduleBuilder.prototype.ensureToken. -/
def endOfInputErr : Err := "Unexpected end of format string."

/-- Marker for fuel exhaustion.  The source's loops terminate because the
cursor only moves forward; the fuel parameter makes that termination
explicit and is never exhausted when the fuel is at least the bounds used
below. -/
def fuelErr : Err := "FUEL"

/-- Shared tail of the parseNumber closure in buildArgument: convert the
token under the cursor with Number(...), negate if a minus sign was
consumed, then advance and ensureToken. -/
def parseNumberFinish (negative : Bool) (t : Token) (rest : List Token) :
    Except Err (Int × List Token) :=
  match jsNumber t.value with
  | none => .error "Unknown argument syntax. Expected a number."
  | some num =>
    let n := if negative then -num else num
    match rest with
    | [] => .error endOfInputErr
    | _ :: _ => .ok (n, rest)

/-- The parseNumber closure of ScheduleBuilder.prototype.buildArgument:
an optional minus sign followed by a numeric token; the cursor is left on
the token after the number, which ensureToken requires to exist. -/
def parseNumber : List Token → Except Err (Int × List Token)
  | [] => .error endOfInputErr
  | t :: rest =>
    if t.isSpecial then
      if t.value = "-" then
        match rest with
        | [] =>
          -- the source computes Number(undefined) = NaN here and fails
          -- while rendering the diagnostic for this message
          .error "Unknown argument syntax. Expected a number."
        | t2 :: rest2 => parseNumberFinish true t2 rest2
      else .error "Unexpected token in argument."
    else parseNumberFinish false t rest

/-- The parseNumberOrDate closure of buildArgument: a number, optionally
followed by a slash and a day number forming a month/day date, validated
against the days-in-month lookup. -/
def parseNumberOrDate (ts : List Token) : Except Err (Sum Int DateValue × List Token) :=
  match parseNumber ts with
  | .error e => .error e
  | .ok (num, ts1) =>
    match ts1 with
    | [] => .ok (.inl num, ts1)  -- unreachable: parseNumber leaves a current token
    | t1 :: rest1 =>
      if t1.value ≠ "/" then .ok (.inl num, ts1)
      else
        if num < 1 ∨ num > 12 then .error "Invalid Month"
        else
          match rest1 with
          | [] => .error endOfInputErr
          | _ :: _ =>
            match parseNumber rest1 with
            | .error e => .error e
            | .ok (day, ts2) =>
              if day < 1 ∨ day > daysInMonth (num - 1) then .error "Invalid Date"
              else .ok (.inr ⟨num, day⟩, ts2)

/-- Trailing section of buildArgument (source lines 225-235): an optional
modulus introduced by a percent token, then the Argument is emitted.  An
empty remainder is only reachable through the weekday high bound, which
the source advances past without ensureToken and then fails with a
TypeError when dereferencing the missing token; we model that failure as
an error message. -/
def finishArgument (value : ArgValue) (isExclude : Bool) :
    List Token → Except Err (List Token × Option AstNode)
  | [] => .error "TypeError: Cannot read properties of undefined (reading value)"
  | t :: rest =>
    if t.value = "%" then
      match rest with
      | [] => .error endOfInputErr
      | _ :: _ =>
        match parseNumber rest with
        | .error e => .error e
        | .ok (m, ts2) => .ok (ts2, some (.arg ⟨value, isExclude, some m⟩))
    else .ok (t :: rest, some (.arg ⟨value, isExclude, none⟩))

/-- Range section of buildArgument (source lines 181-222): given the
resolved low bound (a number, weekday ordinal, or date), check for a
minus sign and a high bound of the compatible kind, then emit through the
modulus section.  The low bound parse has already ensured that a current
token exists, so the empty case is unreachable; it is routed through
finishArgument, whose empty case reproduces the source's behaviour of
dereferencing a missing token. -/
def buildArgRange (low : Sum Int DateValue) (isDayLow : Bool) (isExclude : Bool) :
    List Token → Except Err (List Token × Option AstNode)
  | [] =>
    finishArgument
      (match low with
        | .inl lo => if isDayLow then .days lo lo else .number lo
        | .inr dlo => .dates dlo dlo) isExclude []
  | t1 :: rest1 =>
    if t1.value = "-" then
      match rest1 with
      | [] => .error endOfInputErr
      | t2 :: rest2 =>
        match low with
        | .inl lo =>
          if t2.isDayKeyword then
            -- the source advances past the weekday high bound without
            -- ensureToken and marks the argument as a day range
            finishArgument (.days lo t2.toDayOfWeek) isExclude rest2
          else
            match parseNumberOrDate (t2 :: rest2) with
            | .error e => .error e
            | .ok (.inr _, _) => .error "Cannot mix numeric and date ranges."
            | .ok (.inl hi, ts3) =>
              finishArgument (if isDayLow then .days lo hi else .range lo hi)
                isExclude ts3
        | .inr dlo =>
          -- the low bound is a date, so the isDayKeyword guard is off and
          -- the high bound goes down the number-or-date path
          match parseNumberOrDate (t2 :: rest2) with
          | .error e => .error e
          | .ok (.inl _, _) => .error "Cannot mix numeric and date ranges."
          | .ok (.inr dhi, ts3) => finishArgument (.dates dlo dhi) isExclude ts3
    else
      match low with
      | .inl lo =>
        if isDayLow then finishArgument (.days lo lo) isExclude (t1 :: rest1)
        else finishArgument (.number lo) isExclude (t1 :: rest1)
      | .inr dlo => finishArgument (.dates dlo dlo) isExclude (t1 :: rest1)

mutual

/-- ScheduleBuilder.prototype.buildExpression: name, opening parenthesis,
arguments, closing parenthesis; returns the remaining tokens and the
expression node (the source pushes the node into its context list). -/
def buildExpression : Nat → List Token → Except Err (List Token × AstNode)
  | 0, _ => .error fuelErr
  | fuel + 1, ts =>
    match ts with
    | [] => .error "Expression has no opening parenthesis."  -- unreachable: callers check
    | t0 :: ts0 =>
      match ts0 with
      | [] => .error "Expression has no opening parenthesis."
      | t1 :: ts1 =>
        if t1.value ≠ "(" then .error "Unexpected an opening parenthesis."
        else
          match buildArgLoop fuel ts1 [] with
          | .error e => .error e
          | .ok (ts2, args) =>
            match ts2 with
            | t2 :: rest2 =>
              if t2.value = ")" then .ok (rest2, .expr t0.value args)
              else .error "Expression is missing a closing parenthesis."
            | [] => .error "Expression is missing a closing parenthesis."

/-- The argument loop of buildExpression (source lines 267-276): stop at
a closing parenthesis or end of tokens, otherwise parse one argument and
skip one optional comma. -/
def buildArgLoop : Nat → List Token → List AstNode → Except Err (List Token × List AstNode)
  | 0, _, _ => .error fuelErr
  | fuel + 1, ts, acc =>
    match ts with
    | [] => .ok ([], acc)
    | t :: _ =>
      if t.value = ")" then .ok (ts, acc)
      else
        match buildArgument fuel ts with
        | .error e => .error e
        | .ok (ts1, nodeOpt) =>
          let acc1 := match nodeOpt with
            | some n => acc ++ [n]
            | none => acc
          let ts2 := match ts1 with
            | c :: r => if c.value = "," then r else ts1
            | [] => ts1
          buildArgLoop fuel ts2 acc1

/-- ScheduleBuilder.prototype.buildArgument up to the exclusion prefix:
ensureToken, then an optional exclamation mark (the dead `if (!t)` branch
after the ensureToken call in the source is unreachable). -/
def buildArgument : Nat → List Token → Except Err (List Token × Option AstNode)
  | 0, _ => .error fuelErr
  | fuel + 1, ts =>
    match ts with
    | [] => .error endOfInputErr
    | t0 :: ts0 =>
      if t0.value = "!" then
        match ts0 with
        | [] => .error endOfInputErr
        | t :: rest => buildArgMain fuel true t rest
      else buildArgMain fuel false t0 ts0

/-- Body of buildArgument after the exclusion prefix (source lines
138-223): early return on a special closing parenthesis, empty-argument
error on a comma, delegation to buildExpression on a keyword, wildcard on
a percent token (which is not consumed, so the trailing modulus section
reads that same token), weekday low bound, or number/date low bound. -/
def buildArgMain : Nat → Bool → Token → List Token → Except Err (List Token × Option AstNode)
  | 0, _, _, _ => .error fuelErr
  | fuel + 1, isExclude, t, rest =>
    if t.isSpecial ∧ t.value = ")" then .ok (t :: rest, none)
    else if t.isSpecial ∧ t.value = "," then .error "Empty argument"
    else if t.isExpression then
      if isExclude then .error "Unexpected token in argument."
      else
        match buildExpression fuel (t :: rest) with
        | .error e => .error e
        | .ok (ts1, node) => .ok (ts1, some node)
    else if t.value = "%" then
      finishArgument .wildcard isExclude (t :: rest)
    else if t.isDayKeyword then
      match rest with
      | [] => .error endOfInputErr
      | _ :: _ => buildArgRange (.inl t.toDayOfWeek) true isExclude rest
    else
      match parseNumberOrDate (t :: rest) with
      | .error e => .error e
      | .ok (v, ts1) => buildArgRange v false isExclude ts1

end

/-- ScheduleBuilder.prototype.buildAbstractSyntaxTree: the top-level
loop.  The first flag tracks whether the cursor is still at index zero;
a comma is only skipped when it is not (source condition `i > 0`). -/
def buildAbstractSyntaxTree : Nat → Bool → List Token → List AstNode →
    Except Err (List AstNode)
  | 0, _, _, _ => .error fuelErr
  | fuel + 1, first, ts, acc =>
    match ts with
    | [] => .ok acc
    | t :: rest =>
      if t.isExpression then
        match buildExpression fuel ts with
        | .error e => .error e
        | .ok (ts1, node) => buildAbstractSyntaxTree fuel false ts1 (acc ++ [node])
      else if first = false ∧ t.value = "," then
        buildAbstractSyntaxTree fuel false rest acc
      else .error "Unexpected token. Expected a expression."

/-- Tokenize and parse an input string.  The fuel bound is generous: the
parser spends fuel only while consuming tokens. -/
def parseSchedule (s : String) : Except Err (List AstNode) :=
  let ts := tokenize s
  buildAbstractSyntaxTree (ts.length * 6 + 8) true ts []

/-- The canonical field kinds of compileGroup; the source carries them as
the propType strings seconds, minutes, hours, daysOfWeek, daysOfMonth,
dates. -/
inductive PropType where
  | seconds | minutes | hours | daysOfWeek | daysOfMonth | dates
deriving DecidableEq, Repr

/-- The propType string, used in the Minimum/Maximum error messages. -/
def PropType.str : PropType → String
  | .seconds => "seconds"
  | .minutes => "minutes"
  | .hours => "hours"
  | .daysOfWeek => "daysOfWeek"
  | .daysOfMonth => "daysOfMonth"
  | .dates => "dates"

/-- The switch on the lower-cased expression name in compileGroup (source
lines 348-403), yielding the canonical field and its min/max bounds. -/
def resolveName (lname : String) : Option (PropType × Int × Int) :=
  if lname = "s" ∨ lname = "sec" ∨ lname = "second" ∨ lname = "seconds" ∨
      lname = "secondofminute" ∨ lname = "secondsofminute" then
    some (.seconds, 0, 59)
  else if lname = "m" ∨ lname = "min" ∨ lname = "minute" ∨ lname = "minutes" ∨
      lname = "minuteofhour" ∨ lname = "minutesofhour" then
    some (.minutes, 0, 59)
  else if lname = "h" ∨ lname = "hour" ∨ lname = "hours" ∨
      lname = "hourofday" ∨ lname = "hoursofday" then
    some (.hours, 0, 23)
  else if lname = "day" ∨ lname = "days" ∨ lname = "dow" ∨
      lname = "dayofweek" ∨ lname = "daysofweek" then
    some (.daysOfWeek, 1, 7)
  else if lname = "dom" ∨ lname = "dayofmonth" ∨ lname = "daysofmonth" then
    some (.daysOfMonth, -31, 31)
  else if lname = "date" ∨ lname = "dates" then
    some (.dates, 1, 31)
  else none

/-- The rule[prop].push of compileGroup (source lines 522-526) for the
numeric fields: initialize the slot to an empty list when it is unset,
then append; the exclusion flag selects the <field>Exclude slot.  The
dates field stores date-valued ranges and is pushed through pushDates;
its case here is unreachable. -/
def pushNum (rule : RuleGroup) (pt : PropType) (isExclude : Bool) (r : Range Int) :
    RuleGroup :=
  match pt, isExclude with
  | .seconds, false => { rule with seconds := some (rule.seconds.getD [] ++ [r]) }
  | .seconds, true => { rule with secondsExclude := some (rule.secondsExclude.getD [] ++ [r]) }
  | .minutes, false => { rule with minutes := some (rule.minutes.getD [] ++ [r]) }
  | .minutes, true => { rule with minutesExclude := some (rule.minutesExclude.getD [] ++ [r]) }
  | .hours, false => { rule with hours := some (rule.hours.getD [] ++ [r]) }
  | .hours, true => { rule with hoursExclude := some (rule.hoursExclude.getD [] ++ [r]) }
  | .daysOfWeek, false => { rule with daysOfWeek := some (rule.daysOfWeek.getD [] ++ [r]) }
  | .daysOfWeek, true => { rule with daysOfWeekExclude := some (rule.daysOfWeekExclude.getD [] ++ [r]) }
  | .daysOfMonth, false => { rule with daysOfMonth := some (rule.daysOfMonth.getD [] ++ [r]) }
  | .daysOfMonth, true => { rule with daysOfMonthExclude := some (rule.daysOfMonthExclude.getD [] ++ [r]) }
  | .dates, _ => rule

/-- The rule[prop].push of compileGroup for the dates field. -/
def pushDates (rule : RuleGroup) (isExclude : Bool) (r : Range DateValue) : RuleGroup :=
  if isExclude then { rule with datesExclude := some (rule.datesExclude.getD [] ++ [r]) }
  else { rule with dates := some (rule.dates.getD [] ++ [r]) }

/-- JavaScript truthiness of arg.modulus in `if (arg.modulus)`: null and
zero are falsy. -/
def modTruthy : Option Int → Bool
  | none => false
  | some m => m ≠ 0

/-- The `arg.modulus < 0` comparison: null < 0 is false in JavaScript. -/
def modNegative : Option Int → Bool
  | none => false
  | some m => m < 0

/-- Normalization of one argument of a dates expression (source lines
423-455).  The source's wildcard branch assigns the full calendar span
but is not followed by an else, so the wildcard then falls into the
`arg.type === 'dates' ... else throw` check and fails; only dates-typed
arguments get through.  Months are validated during parsing, bitwise-or
normalized with ToInt32, checked for a wrap across January 1st, and
stored zero-indexed; the negative-modulus check (line 519) still runs
before the push. -/
def normalizeDatesArg (rule : RuleGroup) (arg : Argument) : Except Err RuleGroup :=
  match arg.value with
  | .dates lo hi =>
    let lowM := toInt32 lo.month
    let lowD := toInt32 lo.day
    let highM := toInt32 hi.month
    let highD := toInt32 hi.day
    let split := if lowM ≥ highM ∧ (lowM > highM ∨ lowD > highD) then true else false
    let low : DateValue := ⟨lowM - 1, lowD⟩
    let high : DateValue := ⟨highM - 1, highD⟩
    if modNegative arg.modulus then .error "Modulus value cannot be negative."
    else .ok (pushDates rule arg.isExclude ⟨low, high, split, arg.modulus⟩)
  | _ => .error "Invalid argument. Expected a date."

/-- Shared validation and push for the non-dates fields (source lines
500-526): Minimum/Maximum bounds, the zero day-of-month rejection, the
zero-based shift of day-of-week bounds, the negative-modulus check, and
the push into the field's list or exclude list. -/
def validateAndPush (rule : RuleGroup) (pt : PropType) (mn mx : Int)
    (arg : Argument) (low high : Int) (split : Bool) : Except Err RuleGroup :=
  if low < mn ∨ high < mn then
    .error ("Minimum " ++ pt.str ++ " value is " ++ toString mn)
  else if high > mx ∨ low > mx then
    .error ("Maximum " ++ pt.str ++ " value is " ++ toString mx)
  else if pt = .daysOfMonth ∧ (low = 0 ∨ high = 0) then
    .error "Day of month cannot be zero."
  else
    let low := if pt = .daysOfWeek then low - 1 else low
    let high := if pt = .daysOfWeek then high - 1 else high
    if modNegative arg.modulus then .error "Modulus value cannot be negative."
    else .ok (pushNum rule pt arg.isExclude ⟨low, high, split, arg.modulus⟩)

/-- Normalization of one argument of a non-dates expression (source lines
456-526), following the source's branch order: wildcard; day-typed
arguments or any non-number on a daysOfWeek field; plain number; explicit
range; anything else is an Invalid Argument.  lname is the lower-cased
expression name used in one of the error messages. -/
def normalizeNumArg (rule : RuleGroup) (lname : String) (pt : PropType)
    (mn mx : Int) (arg : Argument) : Except Err RuleGroup :=
  match arg.value with
  | .wildcard =>
    let low := if pt = .daysOfMonth then 1 else mn
    validateAndPush rule pt mn mx arg low mx false
  | .days l h =>
    if pt ≠ .daysOfWeek then
      .error "Weekday names can only be used inside daysOfWeek expressions."
    else
      let low := toInt32 l
      let high := toInt32 h
      if high < low then validateAndPush rule pt mn mx arg low high true
      else if modTruthy arg.modulus ∧ high = low then
        validateAndPush rule pt mn mx arg low mx false
      else validateAndPush rule pt mn mx arg low high false
  | .range l h =>
    if pt = .daysOfWeek then
      -- a generic range on the daysOfWeek field takes the day branch
      let low := toInt32 l
      let high := toInt32 h
      if high < low then validateAndPush rule pt mn mx arg low high true
      else if modTruthy arg.modulus ∧ high = low then
        validateAndPush rule pt mn mx arg low mx false
      else validateAndPush rule pt mn mx arg low high false
    else
      let low := toInt32 l
      let high := toInt32 h
      let split := if low > high ∧ ¬(low ≥ 0 ∧ high < 0) then true else false
      validateAndPush rule pt mn mx arg low high split
  | .number n =>
    let low := toInt32 n
    let high := if modTruthy arg.modulus then mx else low
    validateAndPush rule pt mn mx arg low high false
  | .dates _ _ =>
    if pt = .daysOfWeek then
      .error ("Invalid argument in " ++ lname ++ " expression.")
    else .error "Invalid Argument"

/-- Normalization of one argument node.  A nested expression node has
type 'expression' in the source: on a daysOfWeek field it reaches the
`not days and not range` error of the day branch, elsewhere it falls to
the final Invalid Argument error. -/
def normalizeArg (rule : RuleGroup) (lname : String) (pt : PropType)
    (mn mx : Int) : AstNode → Except Err RuleGroup
  | .expr _ _ =>
    if pt = .dates then .error "Invalid argument. Expected a date."
    else if pt = .daysOfWeek then
      .error ("Invalid argument in " ++ lname ++ " expression.")
    else .error "Invalid Argument"
  | .arg a =>
    if pt = .dates then normalizeDatesArg rule a
    else normalizeNumArg rule lname pt mn mx a

/-- The inner argument loop of compileGroup: each successfully normalized
argument pushes a range and sets somethingSet. -/
def normalizeArgs (lname : String) (pt : PropType) (mn mx : Int) :
    List AstNode → RuleGroup → Bool → Except Err (RuleGroup × Bool)
  | [], rule, s => .ok (rule, s)
  | a :: rest, rule, _ =>
    match normalizeArg rule lname pt mn mx a with
    | .error e => .error e
    | .ok rule1 => normalizeArgs lname pt mn mx rest rule1 true

/-- The expression loop of compileGroup (source lines 338-529): each item
must be an expression node, its name resolves to a field with bounds, an
empty argument list becomes an implicit full range (or, for dates, only
marks the group as non-empty), and the arguments are normalized in
order. -/
def compileGroupLoop : List AstNode → RuleGroup → Bool → Except Err (RuleGroup × Bool)
  | [], rule, s => .ok (rule, s)
  | .arg _ :: _, _, _ => .error "Expected a expression argument."
  | .expr name args :: rest, rule, s =>
    let lname := lowerStr name
    match resolveName lname with
    | none => .error ("Unknown expression " ++ name)
    | some (pt, mn, mx) =>
      if args.isEmpty then
        if pt = .dates then compileGroupLoop rest rule true
        else
          match normalizeArgs lname pt mn mx
              [.arg ⟨.range mn mx, false, none⟩] rule s with
          | .error e => .error e
          | .ok (rule1, s1) => compileGroupLoop rest rule1 s1
      else
        match normalizeArgs lname pt mn mx args rule s with
        | .error e => .error e
        | .ok (rule1, s1) => compileGroupLoop rest rule1 s1

/-- The implied-field defaulting at the end of compileGroup (source lines
534-553). -/
def setupImpliedValues (rule : RuleGroup) : RuleGroup :=
  if rule.seconds.isSome ∨ rule.secondsExclude.isSome then rule
  else if rule.minutes.isSome ∨ rule.minutesExclude.isSome then
    { rule with seconds := some [⟨0, 0, false, none⟩] }
  else if rule.hours.isSome ∨ rule.hoursExclude.isSome then
    { rule with seconds := some [⟨0, 0, false, none⟩],
                minutes := some [⟨0, 0, false, none⟩] }
  else
    { rule with seconds := some [⟨0, 0, false, none⟩],
                minutes := some [⟨0, 0, false, none⟩],
                hours := some [⟨0, 0, false, none⟩] }

/-- ScheduleBuilder.prototype.compileGroup: none models the null returned
when no expression set anything. -/
def compileGroup (expressions : List AstNode) : Except Err (Option RuleGroup) :=
  match compileGroupLoop expressions {} false with
  | .error e => .error e
  | .ok (_, false) => .ok none
  | .ok (rule, true) => .ok (some (setupImpliedValues rule))

/-- The top-level loop of ScheduleBuilder.prototype.compile: group
expressions compile immediately into their own RuleGroup, everything
else is collected for the implicit trailing group.  The name comparison
with group is case-sensitive in the source. -/
def compileLoop : List AstNode → List RuleGroup → List AstNode →
    Except Err (List RuleGroup × List AstNode)
  | [], rules, globals => .ok (rules, globals)
  | .arg _ :: _, _, _ => .error "Syntax Tree is invalid. Top-level item is not a expression."
  | .expr name args :: rest, rules, globals =>
    if name = "group" then
      match compileGroup args with
      | .error e => .error e
      | .ok none => .error "No rules in schedule."
      | .ok (some r) => compileLoop rest (rules ++ [r]) globals
    else compileLoop rest rules (globals ++ [.expr name args])

/-- ScheduleBuilder.prototype.compile.  When the implicit trailing group
is non-empty its compilation cannot return null (every expression that
survives normalization sets somethingSet), so the source's null branch
there is unreachable; it is modelled with the same error message. -/
def compile (ast : List AstNode) : Except Err (List RuleGroup) :=
  match compileLoop ast [] [] with
  | .error e => .error e
  | .ok (rules, globals) =>
    if globals.length > 0 then
      match compileGroup globals with
      | .error e => .error e
      | .ok none => .error "No rules in schedule."
      | .ok (some r) => .ok (rules ++ [r])
    else .ok rules

/-- The full pipeline: tokenize, parse, compile. -/
def compileSchedule (s : String) : Except Err (List RuleGroup) :=
  match parseSchedule s with
  | .error e => .error e
  | .ok ast => compile ast

/-- Success test on a compilation result, for statements that only
assert that a compilation succeeds. -/
def resultOk {α : Type} : Except Err α → Bool
  | .ok _ => true
  | .error _ => false

/-- At least one field slot of the RuleGroup is set. -/
def RuleGroup.hasAnyField (r : RuleGroup) : Bool :=
  r.seconds.isSome || r.secondsExclude.isSome ||
  r.minutes.isSome || r.minutesExclude.isSome ||
  r.hours.isSome || r.hoursExclude.isSome ||
  r.daysOfWeek.isSome || r.daysOfWeekExclude.isSome ||
  r.daysOfMonth.isSome || r.daysOfMonthExclude.isSome ||
  r.dates.isSome || r.datesExclude.isSome

/-- The main range list of a numeric field (the dates lists hold
date-valued ranges and are accessed directly). -/
def RuleGroup.mainList (r : RuleGroup) : PropType → Option (List (Range Int))
  | .seconds => r.seconds
  | .minutes => r.minutes
  | .hours => r.hours
  | .daysOfWeek => r.daysOfWeek
  | .daysOfMonth => r.daysOfMonth
  | .dates => none

/-- The exclude range list of a numeric field. -/
def RuleGroup.excludeList (r : RuleGroup) : PropType → Option (List (Range Int))
  | .seconds => r.secondsExclude
  | .minutes => r.minutesExclude
  | .hours => r.hoursExclude
  | .daysOfWeek => r.daysOfWeekExclude
  | .daysOfMonth => r.daysOfMonthExclude
  | .dates => none

/-- A top-level comma token standing alone between expressions. -/
def IsCommaBlock (b : List Token) : Prop :=
  ∃ t : Token, b = [t] ∧ t.value = ","

/-- A token block that buildExpression accepts, consuming exactly the
block: for any continuation and any fuel of at least f, parsing the
block followed by the continuation succeeds, returns the continuation
unconsumed, and produces the given node. -/
def ExprBlockOk (f : Nat) (b : List Token) (node : AstNode) : Prop :=
  (∃ t ts, b = t :: ts ∧ t.isExpression = true) ∧
  ∀ (k : Nat) (rest : List Token), buildExpression (k + f) (b ++ rest) = .ok (rest, node)

/-- An interleaving of expression blocks and top-level commas, together
with the nodes the expression blocks produce in order. -/
def BlocksOk (f : Nat) : List (List Token) → List AstNode → Prop
  | [], nodes => nodes = []
  | b :: bs, nodes =>
    (IsCommaBlock b ∧ BlocksOk f bs nodes) ∨
    (∃ node nodes2, nodes = node :: nodes2 ∧ ExprBlockOk f b node ∧ BlocksOk f bs nodes2)

/-
Shared lemmas about the embedding, followed by one theorem per claim of
the specification review, each with its witness or counterexample where
applicable.
-/

/-- ToInt32 is the identity on the int32 range, hence on every value
that passes a field's bounds validation. -/
theorem toInt32_eq_of_small (n : Int) (h1 : -(2 ^ 31) ≤ n) (h2 : n < 2 ^ 31) :
    toInt32 n = n := by
  unfold toInt32
  have h3 : (0 : Int) ≤ n + 2 ^ 31 := by omega
  have h4 : n + 2 ^ 31 < 2 ^ 32 := by omega
  rw [Int.emod_eq_of_lt h3 h4]
  omega

/-- A single non-group top-level expression compiles through the
implicit trailing group. -/
theorem compile_singleGlobal (name : String) (args : List AstNode) (h : ¬(name = "group")) :
    compile [.expr name args] =
      match compileGroup [.expr name args] with
      | .error e => .error e
      | .ok none => .error "No rules in schedule."
      | .ok (some r) => .ok [r] := by
  simp only [compile, compileLoop, if_neg h]
  cases hG : compileGroup [.expr name args] with
  | error e => simp [hG]
  | ok o => cases o <;> simp [hG]

/-- A comma token never classifies as an expression keyword. -/
theorem comma_not_expression (t : Token) (h : t.value = ",") :
    t.isExpression = false := by
  simp [Token.isExpression, h]

/-- The top-level loop accepts any interleaving of accepted expression
blocks and commas, skipping the commas, provided the very first block is
not a comma (the source only skips commas at index i > 0). -/
theorem buildAST_blocks (f : Nat) (blocks : List (List Token)) :
    ∀ (nodes : List AstNode) (first : Bool) (acc : List AstNode),
      BlocksOk f blocks nodes →
      (first = true → ∀ b bs, blocks = b :: bs → ¬ IsCommaBlock b) →
      ∀ F, f + blocks.length + 1 ≤ F →
        buildAbstractSyntaxTree F first blocks.flatten acc = .ok (acc ++ nodes) := by
  induction blocks with
  | nil =>
    intro nodes first acc hB _ F hF
    obtain rfl : nodes = [] := hB
    obtain ⟨F2, rfl⟩ : ∃ F2, F = F2 + 1 := ⟨F - 1, by omega⟩
    simp [buildAbstractSyntaxTree]
  | cons b bs ih =>
    intro nodes first acc hB hFirst F hF
    obtain ⟨F2, rfl⟩ : ∃ F2, F = F2 + 1 := ⟨F - 1, by omega⟩
    rcases hB with ⟨hc, hB2⟩ | ⟨node, nodes2, rfl, hE, hB2⟩
    · -- comma block: only legal when not at the very first token
      have hfirst : first = false := by
        cases first with
        | false => rfl
        | true => exact absurd hc (hFirst rfl b bs rfl)
      subst hfirst
      obtain ⟨t, rfl, hval⟩ := hc
      have hne : t.isExpression = false := comma_not_expression t hval
      simp only [List.flatten_cons, List.singleton_append]
      have hstep : buildAbstractSyntaxTree (F2 + 1) false (t :: bs.flatten) acc =
          buildAbstractSyntaxTree F2 false bs.flatten acc := by
        simp [buildAbstractSyntaxTree, hne, hval]
      rw [hstep]
      exact ih nodes false acc hB2 (by intro hcon; cases hcon) F2 (by
        simp only [List.length_cons] at hF; omega)
    · -- expression block
      obtain ⟨⟨t, ts, rfl, hexp⟩, hrun⟩ := hE
      have hkf : F2 - f + f = F2 := by
        simp only [List.length_cons] at hF; omega
      have hrun2 := hrun (F2 - f) bs.flatten
      rw [hkf] at hrun2
      simp only [List.cons_append] at hrun2
      simp only [List.flatten_cons, List.cons_append, buildAbstractSyntaxTree, hexp,
        if_true]
      rw [hrun2]
      have := ih nodes2 false (acc ++ [node]) hB2 (by intro hcon; cases hcon) F2 (by
        simp only [List.length_cons] at hF; omega)
      simp only [this]
      simp

/-- The top-level loop raises the expected-expression error on any
non-expression token that is not a skippable comma. -/
theorem buildAST_rejects (first : Bool) (t : Token) (rest : List Token)
    (acc : List AstNode) (F : Nat)
    (h1 : t.isExpression = false) (h2 : first = true ∨ ¬(t.value = ",")) :
    buildAbstractSyntaxTree (F + 1) first (t :: rest) acc =
      .error "Unexpected token. Expected a expression." := by
  rcases h2 with h2 | h2
  · subst h2
    simp [buildAbstractSyntaxTree, h1]
  · simp [buildAbstractSyntaxTree, h1, h2]

/-- The token block of hour(5) is accepted by buildExpression with any
sufficient fuel and any continuation. -/
theorem hourFive_block (k : Nat) (rest : List Token) :
    buildExpression (k + 5) (tokenize "hour(5)" ++ rest) =
      .ok (rest, .expr "hour" [.arg ⟨.number 5, false, none⟩]) := rfl

/-- Every RuleGroup successfully produced by compileGroup has its
seconds or secondsExclude slot set: either an expression set it, or the
implied-value defaulting did. -/
theorem compileGroup_some_secondsSet (exprs : List AstNode) (r : RuleGroup)
    (h : compileGroup exprs = .ok (some r)) :
    r.seconds.isSome = true ∨ r.secondsExclude.isSome = true := by
  unfold compileGroup at h
  cases hL : compileGroupLoop exprs {} false with
  | error e => rw [hL] at h; cases h
  | ok p =>
    rw [hL] at h
    obtain ⟨rule, s⟩ := p
    cases s with
    | false => cases h
    | true =>
      have hr : setupImpliedValues rule = r := by
        injection h with h2
        injection h2
      subst hr
      unfold setupImpliedValues
      split
      · next hc => exact hc
      · split
        · simp
        · split <;> simp

/-- A group with the seconds slot or its exclude slot set has at least
one field set. -/
theorem secondsSet_hasAnyField (r : RuleGroup)
    (h : r.seconds.isSome = true ∨ r.secondsExclude.isSome = true) :
    r.hasAnyField = true := by
  rcases h with h | h <;> simp [RuleGroup.hasAnyField, h]

/-- Invariant of the top-level compile loop: every accumulated rule has
a field set, and each AST item contributes exactly one rule or one
global expression. -/
theorem compileLoop_invariant (ast : List AstNode) :
    ∀ (rules : List RuleGroup) (globals : List AstNode)
      (rules2 : List RuleGroup) (globals2 : List AstNode),
      compileLoop ast rules globals = .ok (rules2, globals2) →
      (∀ r ∈ rules, r.seconds.isSome = true ∨ r.secondsExclude.isSome = true) →
      (∀ r ∈ rules2, r.seconds.isSome = true ∨ r.secondsExclude.isSome = true) ∧
      rules2.length + globals2.length = rules.length + globals.length + ast.length := by
  induction ast with
  | nil =>
    intro rules globals rules2 globals2 h hP
    simp only [compileLoop] at h
    injection h with h2
    injection h2 with ha hb
    subst ha; subst hb
    exact ⟨hP, by simp⟩
  | cons hd tl ih =>
    intro rules globals rules2 globals2 h hP
    cases hd with
    | arg a => simp only [compileLoop] at h; cases h
    | expr name args =>
      by_cases hg : name = "group"
      · simp only [compileLoop, if_pos hg] at h
        cases hG : compileGroup args with
        | error e => rw [hG] at h; cases h
        | ok o =>
          cases o with
          | none => rw [hG] at h; cases h
          | some r =>
            rw [hG] at h
            have hPr := compileGroup_some_secondsSet args r hG
            have hP2 : ∀ x ∈ rules ++ [r],
                x.seconds.isSome = true ∨ x.secondsExclude.isSome = true := by
              intro x hx
              rcases List.mem_append.mp hx with hx | hx
              · exact hP x hx
              · rcases List.mem_singleton.mp hx with rfl
                exact hPr
            have := ih (rules ++ [r]) globals rules2 globals2 h hP2
            refine ⟨this.1, ?_⟩
            have hlen := this.2
            simp only [List.length_append, List.length_singleton, List.length_cons,
              List.length_nil] at hlen ⊢
            omega
      · simp only [compileLoop, if_neg hg] at h
        have := ih rules (globals ++ [.expr name args]) rules2 globals2 h hP
        refine ⟨this.1, ?_⟩
        have hlen := this.2
        simp only [List.length_append, List.length_singleton, List.length_cons,
          List.length_nil] at hlen ⊢
        omega

/-- C1 (amended): group() raises the fatal no-rules error, and whenever
compilation of a non-empty syntax tree succeeds, at least one RuleGroup
is produced and every produced RuleGroup has at least one field set.
The original claim is refuted on the empty input, which compiles to an
empty rule list without error (see the counterexample). -/
theorem c1_no_rules_in_schedule :
    compileSchedule "group()" = .error "No rules in schedule." ∧
    ∀ (ast : List AstNode) (rules : List RuleGroup),
      ast ≠ [] → compile ast = .ok rules →
      rules ≠ [] ∧ ∀ r ∈ rules, r.hasAnyField = true := by
  refine ⟨rfl, ?_⟩
  intro ast rules hne h
  unfold compile at h
  cases hL : compileLoop ast [] [] with
  | error e => rw [hL] at h; cases h
  | ok p =>
    rw [hL] at h
    obtain ⟨rules0, globals⟩ := p
    dsimp only at h
    have hinv := compileLoop_invariant ast [] [] rules0 globals hL (by intro r hr; cases hr)
    by_cases hgl : globals.length > 0
    · rw [if_pos hgl] at h
      cases hG : compileGroup globals with
      | error e => rw [hG] at h; cases h
      | ok o =>
        cases o with
        | none => rw [hG] at h; cases h
        | some r =>
          rw [hG] at h
          injection h with h2
          subst h2
          refine ⟨by simp, ?_⟩
          intro x hx
          rcases List.mem_append.mp hx with hx | hx
          · exact secondsSet_hasAnyField x (hinv.1 x hx)
          · rcases List.mem_singleton.mp hx with rfl
            exact secondsSet_hasAnyField x (compileGroup_some_secondsSet globals x hG)
    · rw [if_neg hgl] at h
      injection h with h2
      subst h2
      have hast : ast.length > 0 := by
        cases ast with
        | nil => exact absurd rfl hne
        | cons a b => simp
      refine ⟨?_, ?_⟩
      · intro hempty
        subst hempty
        simp at hinv
        omega
      · intro x hx
        exact secondsSet_hasAnyField x (hinv.1 x hx)

/-- C1 witness: the single expression h() compiles to one rule with a
field set. -/
theorem c1_no_rules_in_schedule_witness :
    ([{ seconds := some [{ low := 0, high := 0 }],
        minutes := some [{ low := 0, high := 0 }],
        hours := some [{ low := 0, high := 23 }] }] : List RuleGroup) ≠ [] ∧
    ∀ r ∈ ([{ seconds := some [{ low := 0, high := 0 }],
              minutes := some [{ low := 0, high := 0 }],
              hours := some [{ low := 0, high := 23 }] }] : List RuleGroup),
      r.hasAnyField = true :=
  c1_no_rules_in_schedule.2 [.expr "h" []] _ (by simp) rfl

/-- C1 counterexample: an input with no expressions at all compiles to
an empty rule list without raising the no-rules error, contrary to the
claim. -/
theorem c1_empty_input_counterexample :
    compileSchedule "" = .ok [] ∧ resultOk (compileSchedule "") = true :=
  ⟨rfl, rfl⟩

/-- C2 (amended): the top-level loop accepts every interleaving of
accepted expression blocks and commas whose first element is not a
comma, skips the commas (the AST is exactly the expression nodes in
order), and raises the expected-expression error on any other token;
a comma at the very first position is rejected, not skipped (see the
counterexample). -/
theorem c2_top_level_document_grammar :
    (∀ (f : Nat) (blocks : List (List Token)) (nodes : List AstNode),
      BlocksOk f blocks nodes →
      (∀ b bs, blocks = b :: bs → ¬ IsCommaBlock b) →
      ∀ F, f + blocks.length + 1 ≤ F →
        buildAbstractSyntaxTree F true blocks.flatten [] = .ok nodes) ∧
    (∀ (first : Bool) (t : Token) (rest : List Token) (acc : List AstNode) (F : Nat),
      t.isExpression = false → (first = true ∨ ¬(t.value = ",")) →
      buildAbstractSyntaxTree (F + 1) first (t :: rest) acc =
        .error "Unexpected token. Expected a expression.") := by
  constructor
  · intro f blocks nodes hB hFirst F hF
    have := buildAST_blocks f blocks nodes true [] hB (fun _ => hFirst) F hF
    simpa using this
  · exact buildAST_rejects

/-- C2 witness: hour(5),hour(5) parses into the two expression nodes
with the comma skipped, and a bare number at the top level is
rejected. -/
theorem c2_top_level_document_grammar_witness :
    buildAbstractSyntaxTree 9 true
      (List.flatten [tokenize "hour(5)", [⟨7, ",", true⟩], tokenize "hour(5)"]) [] =
      .ok [.expr "hour" [.arg ⟨.number 5, false, none⟩],
           .expr "hour" [.arg ⟨.number 5, false, none⟩]] ∧
    buildAbstractSyntaxTree 9 true [⟨0, "5", false⟩] [] =
      .error "Unexpected token. Expected a expression." := by
  constructor
  · exact c2_top_level_document_grammar.1 5
      [tokenize "hour(5)", [⟨7, ",", true⟩], tokenize "hour(5)"]
      [.expr "hour" [.arg ⟨.number 5, false, none⟩],
       .expr "hour" [.arg ⟨.number 5, false, none⟩]]
      (by
        refine Or.inr ⟨_, _, rfl, ⟨⟨_, _, rfl, rfl⟩, hourFive_block⟩, ?_⟩
        refine Or.inl ⟨⟨⟨7, ",", true⟩, rfl, rfl⟩, ?_⟩
        refine Or.inr ⟨_, _, rfl, ⟨⟨_, _, rfl, rfl⟩, hourFive_block⟩, rfl⟩)
      (by
        intro b bs hb hc
        injection hb with hb1 hb3
        subst hb1
        obtain ⟨t, hb2, hval⟩ := hc
        have hlen : (tokenize "hour(5)").length = 4 := rfl
        rw [hb2] at hlen
        simp at hlen)
      9 (by simp)
  · exact c2_top_level_document_grammar.2 true ⟨0, "5", false⟩ [] [] 8 rfl (Or.inl rfl)

/-- C2 counterexample: a comma before the first expression raises the
expected-expression error instead of being skipped (the source only
skips commas at index i > 0). -/
theorem c2_leading_comma_counterexample :
    parseSchedule "," = .error "Unexpected token. Expected a expression." ∧
    parseSchedule ", hour(5)" = .error "Unexpected token. Expected a expression." :=
  ⟨rfl, rfl⟩

/-- C3 (amended): for the five numeric fields (seconds, minutes, hours,
daysOfWeek, daysOfMonth), compiling the field minimum or maximum as a
single value succeeds, and min-1 or max+1 raises the Minimum or Maximum
error.  The dates field is excluded: it is validated during parsing and
its arguments must be dates, so the property fails there (see the
counterexample). -/
theorem c3_bounds_roundtrip :
    (resultOk (compileSchedule "s(0)") = true ∧
     resultOk (compileSchedule "s(59)") = true ∧
     compileSchedule "s(-1)" = .error "Minimum seconds value is 0" ∧
     compileSchedule "s(60)" = .error "Maximum seconds value is 59") ∧
    (resultOk (compileSchedule "m(0)") = true ∧
     resultOk (compileSchedule "m(59)") = true ∧
     compileSchedule "m(-1)" = .error "Minimum minutes value is 0" ∧
     compileSchedule "m(60)" = .error "Maximum minutes value is 59") ∧
    (resultOk (compileSchedule "h(0)") = true ∧
     resultOk (compileSchedule "h(23)") = true ∧
     compileSchedule "h(-1)" = .error "Minimum hours value is 0" ∧
     compileSchedule "h(24)" = .error "Maximum hours value is 23") ∧
    (resultOk (compileSchedule "day(1)") = true ∧
     resultOk (compileSchedule "day(7)") = true ∧
     compileSchedule "day(0)" = .error "Minimum daysOfWeek value is 1" ∧
     compileSchedule "day(8)" = .error "Maximum daysOfWeek value is 7") ∧
    (resultOk (compileSchedule "dom(-31)") = true ∧
     resultOk (compileSchedule "dom(31)") = true ∧
     compileSchedule "dom(-32)" = .error "Minimum daysOfMonth value is -31" ∧
     compileSchedule "dom(32)" = .error "Maximum daysOfMonth value is 31") :=
  ⟨⟨rfl, rfl, rfl, rfl⟩, ⟨rfl, rfl, rfl, rfl⟩, ⟨rfl, rfl, rfl, rfl⟩,
   ⟨rfl, rfl, rfl, rfl⟩, ⟨rfl, rfl, rfl, rfl⟩⟩

/-- C3 counterexample: on the dates field (min 1), compiling the single
value 1 does not succeed; a dates expression rejects plain numbers, so
the round-trip property fails for the dates field. -/
theorem c3_dates_field_counterexample :
    compileSchedule "date(1)" = .error "Invalid argument. Expected a date." ∧
    resultOk (compileSchedule "date(1)") = false :=
  ⟨rfl, rfl⟩


/-- C4 (amended): for every numeric field (seconds, minutes, hours,
daysOfMonth) and every in-bounds single number n with non-negative
modulus option mo, the compiled Range is (n, max) when mo is a nonzero
modulus and (n, n) when mo is absent or zero, with mo stored as the
Range's modulus.  The original claim's unconditional (n, max) fails for
modulus 0, which is falsy in the source's `if (arg.modulus)` test (see
the counterexample). -/
theorem c4_number_modulus_range :
    (∀ (n : Int) (mo : Option Int), 0 ≤ n → n ≤ 59 → modNegative mo = false →
      compile [.expr "s" [.arg ⟨.number n, false, mo⟩]] =
        .ok [{ seconds := some [⟨n, if modTruthy mo then 59 else n, false, mo⟩] }]) ∧
    (∀ (n : Int) (mo : Option Int), 0 ≤ n → n ≤ 59 → modNegative mo = false →
      compile [.expr "m" [.arg ⟨.number n, false, mo⟩]] =
        .ok [{ seconds := some [{ low := 0, high := 0 }],
               minutes := some [⟨n, if modTruthy mo then 59 else n, false, mo⟩] }]) ∧
    (∀ (n : Int) (mo : Option Int), 0 ≤ n → n ≤ 23 → modNegative mo = false →
      compile [.expr "h" [.arg ⟨.number n, false, mo⟩]] =
        .ok [{ seconds := some [{ low := 0, high := 0 }],
               minutes := some [{ low := 0, high := 0 }],
               hours := some [⟨n, if modTruthy mo then 23 else n, false, mo⟩] }]) ∧
    (∀ (n : Int) (mo : Option Int), -31 ≤ n → n ≤ 31 → n ≠ 0 → modNegative mo = false →
      compile [.expr "dom" [.arg ⟨.number n, false, mo⟩]] =
        .ok [{ seconds := some [{ low := 0, high := 0 }],
               minutes := some [{ low := 0, high := 0 }],
               hours := some [{ low := 0, high := 0 }],
               daysOfMonth := some [⟨n, if modTruthy mo then 31 else n, false, mo⟩] }]) := by
  refine ⟨?_, ?_, ?_, ?_⟩
  · intro n mo hn1 hn2 hmo
    rw [compile_singleGlobal _ _ (by decide)]
    have e : toInt32 n = n := toInt32_eq_of_small _ (by omega) (by omega)
    have hres : resolveName (lowerStr "s") = some (.seconds, 0, 59) := rfl
    have c1 : ¬(n < (0 : Int)) := by omega
    have c2 : ¬((59 : Int) < n) := by omega
    have c3 : ¬((59 : Int) < 59) := by omega
    cases hmt : modTruthy mo <;>
      simp [compileGroup, compileGroupLoop, hres, normalizeArgs, normalizeArg,
        normalizeNumArg, validateAndPush, e, hmt, hmo, pushNum,
        setupImpliedValues, c1, c2, c3]
  · intro n mo hn1 hn2 hmo
    rw [compile_singleGlobal _ _ (by decide)]
    have e : toInt32 n = n := toInt32_eq_of_small _ (by omega) (by omega)
    have hres : resolveName (lowerStr "m") = some (.minutes, 0, 59) := rfl
    have c1 : ¬(n < (0 : Int)) := by omega
    have c2 : ¬((59 : Int) < n) := by omega
    have c3 : ¬((59 : Int) < 59) := by omega
    cases hmt : modTruthy mo <;>
      simp [compileGroup, compileGroupLoop, hres, normalizeArgs, normalizeArg,
        normalizeNumArg, validateAndPush, e, hmt, hmo, pushNum,
        setupImpliedValues, c1, c2, c3]
  · intro n mo hn1 hn2 hmo
    rw [compile_singleGlobal _ _ (by decide)]
    have e : toInt32 n = n := toInt32_eq_of_small _ (by omega) (by omega)
    have hres : resolveName (lowerStr "h") = some (.hours, 0, 23) := rfl
    have c1 : ¬(n < (0 : Int)) := by omega
    have c2 : ¬((23 : Int) < n) := by omega
    have c3 : ¬((23 : Int) < 23) := by omega
    cases hmt : modTruthy mo <;>
      simp [compileGroup, compileGroupLoop, hres, normalizeArgs, normalizeArg,
        normalizeNumArg, validateAndPush, e, hmt, hmo, pushNum,
        setupImpliedValues, c1, c2, c3]
  · intro n mo hn1 hn2 hz hmo
    rw [compile_singleGlobal _ _ (by decide)]
    have e : toInt32 n = n := toInt32_eq_of_small _ (by omega) (by omega)
    have hres : resolveName (lowerStr "dom") = some (.daysOfMonth, -31, 31) := rfl
    have c1 : ¬(n < (-31 : Int)) := by omega
    have c2 : ¬((31 : Int) < n) := by omega
    have c3 : ¬((31 : Int) < 31) := by omega
    have c4 : ¬(n = (0 : Int)) := hz
    have c5 : ¬((31 : Int) = 0) := by omega
    cases hmt : modTruthy mo <;>
      simp [compileGroup, compileGroupLoop, hres, normalizeArgs, normalizeArg,
        normalizeNumArg, validateAndPush, e, hmt, hmo, pushNum,
        setupImpliedValues, c1, c2, c3, c4, c5]

/-- C4 witness: h with the number 5 and modulus 2 compiles to the hours
Range (5, 23) with modulus 2; with no modulus it compiles to (5, 5). -/
theorem c4_number_modulus_range_witness :
    compile [.expr "h" [.arg ⟨.number 5, false, some 2⟩]] =
      .ok [{ seconds := some [{ low := 0, high := 0 }],
             minutes := some [{ low := 0, high := 0 }],
             hours := some [{ low := 5, high := 23, split := false, modulus := some 2 }] }] ∧
    compile [.expr "h" [.arg ⟨.number 5, false, none⟩]] =
      .ok [{ seconds := some [{ low := 0, high := 0 }],
             minutes := some [{ low := 0, high := 0 }],
             hours := some [{ low := 5, high := 5, split := false, modulus := none }] }] :=
  ⟨c4_number_modulus_range.2.2.1 5 (some 2) (by decide) (by decide) rfl,
   c4_number_modulus_range.2.2.1 5 none (by decide) (by decide) rfl⟩

/-- C4 counterexample: with modulus 0 the compiled hours Range is
(5, 5), not (5, 23) as the claim requires for every modulus, because 0
is falsy in the source's `if (arg.modulus)` test. -/
theorem c4_modulus_zero_counterexample :
    compileSchedule "h(5%0)" =
      .ok [{ seconds := some [{ low := 0, high := 0 }],
             minutes := some [{ low := 0, high := 0 }],
             hours := some [{ low := 5, high := 5, split := false, modulus := some 0 }] }] ∧
    ({ low := 5, high := 5, split := false, modulus := some 0 } : Range Int) ≠
      { low := 5, high := 23, split := false, modulus := some 0 } :=
  ⟨rfl, by decide⟩

/-- C5 (amended): for an explicit numeric range whose bounds lie in the
field's domain, the compiled Range keeps the argument's low and high
exactly and is split precisely when low > high and not (low ≥ 0 and
high < 0); in particular a positive-low/negative-high day-of-month range
is not marked split.  Outside the int32 range the source's `| 0`
coercion truncates the bounds first, so the unrestricted claim fails
(see the counterexample). -/
theorem c5_range_split_flag :
    (∀ lo hi : Int, 0 ≤ lo → lo ≤ 23 → 0 ≤ hi → hi ≤ 23 →
      compile [.expr "h" [.arg ⟨.range lo hi, false, none⟩]] =
        .ok [{ seconds := some [{ low := 0, high := 0 }],
               minutes := some [{ low := 0, high := 0 }],
               hours := some [⟨lo, hi,
                 if lo > hi ∧ ¬(lo ≥ 0 ∧ hi < 0) then true else false, none⟩] }]) ∧
    (∀ lo hi : Int, -31 ≤ lo → lo ≤ 31 → -31 ≤ hi → hi ≤ 31 → lo ≠ 0 → hi ≠ 0 →
      compile [.expr "dom" [.arg ⟨.range lo hi, false, none⟩]] =
        .ok [{ seconds := some [{ low := 0, high := 0 }],
               minutes := some [{ low := 0, high := 0 }],
               hours := some [{ low := 0, high := 0 }],
               daysOfMonth := some [⟨lo, hi,
                 if lo > hi ∧ ¬(lo ≥ 0 ∧ hi < 0) then true else false, none⟩] }]) ∧
    (∀ lo hi : Int,
      ((if lo > hi ∧ ¬(lo ≥ 0 ∧ hi < 0) then true else false) = true ↔
        (lo > hi ∧ ¬(lo ≥ 0 ∧ hi < 0)))) := by
  refine ⟨?_, ?_, ?_⟩
  · intro lo hi h1 h2 h3 h4
    rw [compile_singleGlobal _ _ (by decide)]
    have e1 : toInt32 lo = lo := toInt32_eq_of_small _ (by omega) (by omega)
    have e2 : toInt32 hi = hi := toInt32_eq_of_small _ (by omega) (by omega)
    have hres : resolveName (lowerStr "h") = some (.hours, 0, 23) := rfl
    have c1 : ¬(lo < (0 : Int) ∨ hi < 0) := by omega
    have c2 : ¬((23 : Int) < hi ∨ (23 : Int) < lo) := by omega
    simp [compileGroup, compileGroupLoop, hres, normalizeArgs, normalizeArg,
      normalizeNumArg, validateAndPush, e1, e2, pushNum, modNegative,
      setupImpliedValues, c1, c2]
  · intro lo hi h1 h2 h3 h4 h5 h6
    rw [compile_singleGlobal _ _ (by decide)]
    have e1 : toInt32 lo = lo := toInt32_eq_of_small _ (by omega) (by omega)
    have e2 : toInt32 hi = hi := toInt32_eq_of_small _ (by omega) (by omega)
    have hres : resolveName (lowerStr "dom") = some (.daysOfMonth, -31, 31) := rfl
    have c1 : ¬(lo < (-31 : Int) ∨ hi < -31) := by omega
    have c2 : ¬((31 : Int) < hi ∨ (31 : Int) < lo) := by omega
    have c3 : ¬(lo = (0 : Int) ∨ hi = 0) := by omega
    simp [compileGroup, compileGroupLoop, hres, normalizeArgs, normalizeArg,
      normalizeNumArg, validateAndPush, e1, e2, pushNum, modNegative,
      setupImpliedValues, c1, c2, c3]
  · intro lo hi
    by_cases hc : lo > hi ∧ ¬(lo ≥ 0 ∧ hi < 0)
    · simp [hc]
    · simp [hc]
      omega

/-- C5 witness: hours 20-4 compiles split (a wrap), and day-of-month
5 to -3 compiles unsplit (positive low, negative high). -/
theorem c5_range_split_flag_witness :
    compile [.expr "h" [.arg ⟨.range 20 4, false, none⟩]] =
      .ok [{ seconds := some [{ low := 0, high := 0 }],
             minutes := some [{ low := 0, high := 0 }],
             hours := some [{ low := 20, high := 4, split := true, modulus := none }] }] ∧
    compile [.expr "dom" [.arg ⟨.range 5 (-3), false, none⟩]] =
      .ok [{ seconds := some [{ low := 0, high := 0 }],
             minutes := some [{ low := 0, high := 0 }],
             hours := some [{ low := 0, high := 0 }],
             daysOfMonth := some [{ low := 5, high := -3, split := false, modulus := none }] }] :=
  ⟨c5_range_split_flag.1 20 4 (by decide) (by decide) (by decide) (by decide),
   c5_range_split_flag.2.1 5 (-3) (by decide) (by decide) (by decide) (by decide)
     (by decide) (by decide)⟩

/-- C5 counterexample: the hours range 4294967296-4294967297 compiles
successfully, but to the Range (0, 1) after int32 truncation, so the
compiled Range does not have exactly the argument's low and high. -/
theorem c5_int32_truncation_counterexample :
    compileSchedule "hour(4294967296-4294967297)" =
      .ok [{ seconds := some [{ low := 0, high := 0 }],
             minutes := some [{ low := 0, high := 0 }],
             hours := some [{ low := 0, high := 1 }] }] ∧
    ((0 : Int) ≠ 4294967296 ∧ (1 : Int) ≠ 4294967297) :=
  ⟨rfl, by decide, by decide⟩

/-- C6: date(11/15-2/1) compiles to a dates Range with split true whose
low is month 10 (zero-indexed November) day 15 and whose high is month 1
(zero-indexed February) day 1; in general a parsed date range is marked
split exactly when its low month/day lexicographically exceeds its high
month/day, and both stored months are decremented to zero-indexed
form. -/
theorem c6_date_range_split :
    (compileSchedule "date(11/15-2/1)" =
      .ok [{ seconds := some [{ low := 0, high := 0 }],
             minutes := some [{ low := 0, high := 0 }],
             hours := some [{ low := 0, high := 0 }],
             dates := some [{ low := ⟨10, 15⟩, high := ⟨1, 1⟩,
                              split := true, modulus := none }] }]) ∧
    (∀ lm ld hm hd : Int, 1 ≤ lm → lm ≤ 12 → 1 ≤ hm → hm ≤ 12 →
      1 ≤ ld → ld ≤ 31 → 1 ≤ hd → hd ≤ 31 →
      ∃ s : Bool,
        compileGroup [.expr "date" [.arg ⟨.dates ⟨lm, ld⟩ ⟨hm, hd⟩, false, none⟩]] =
          .ok (some { seconds := some [{ low := 0, high := 0 }],
                      minutes := some [{ low := 0, high := 0 }],
                      hours := some [{ low := 0, high := 0 }],
                      dates := some [⟨⟨lm - 1, ld⟩, ⟨hm - 1, hd⟩, s, none⟩] }) ∧
        (s = true ↔ (lm > hm ∨ (lm = hm ∧ ld > hd)))) := by
  refine ⟨rfl, ?_⟩
  intro lm ld hm hd h1 h2 h3 h4 h5 h6 h7 h8
  have e1 : toInt32 lm = lm := toInt32_eq_of_small _ (by omega) (by omega)
  have e2 : toInt32 ld = ld := toInt32_eq_of_small _ (by omega) (by omega)
  have e3 : toInt32 hm = hm := toInt32_eq_of_small _ (by omega) (by omega)
  have e4 : toInt32 hd = hd := toInt32_eq_of_small _ (by omega) (by omega)
  have hres : resolveName (lowerStr "date") = some (.dates, 1, 31) := rfl
  refine ⟨if lm ≥ hm ∧ (lm > hm ∨ ld > hd) then true else false, ?_, ?_⟩
  · simp only [compileGroup, compileGroupLoop, hres, List.isEmpty, normalizeArgs,
      normalizeArg, normalizeDatesArg, e1, e2, e3, e4, modNegative, pushDates,
      setupImpliedValues]
    simp [setupImpliedValues, pushDates]
  · constructor
    · intro hs
      by_cases hc : lm ≥ hm ∧ (lm > hm ∨ ld > hd)
      · omega
      · simp [hc] at hs
    · intro hc
      have hc2 : lm ≥ hm ∧ (lm > hm ∨ ld > hd) := by omega
      simp [hc2]

/-- C6 witness: the general statement at 11/15 through 2/1. -/
theorem c6_date_range_split_witness :
    ∃ s : Bool,
      compileGroup [.expr "date" [.arg ⟨.dates ⟨11, 15⟩ ⟨2, 1⟩, false, none⟩]] =
        .ok (some { seconds := some [{ low := 0, high := 0 }],
                    minutes := some [{ low := 0, high := 0 }],
                    hours := some [{ low := 0, high := 0 }],
                    dates := some [⟨⟨10, 15⟩, ⟨1, 1⟩, s, none⟩] }) ∧
      (s = true ↔ ((11 : Int) > 2 ∨ ((11 : Int) = 2 ∧ (15 : Int) > 1))) :=
  c6_date_range_split.2 11 15 2 1 (by decide) (by decide) (by decide) (by decide)
    (by decide) (by decide) (by decide) (by decide)

/-- C7: the implied-field defaulting of compileGroup: when seconds and
secondsExclude are unset but a minutes-level field is set, seconds
defaults to [Range(0,0)]; when only hours-level is set among the time
fields, seconds and minutes default; when no time field is set (only
date-level expressions), seconds, minutes and hours all default; and
when seconds is set nothing is changed.  The input date(1/1) alone
yields seconds = minutes = hours = [Range(0,0)]. -/
theorem c7_implied_defaults :
    (∀ r : RuleGroup, r.seconds = none → r.secondsExclude = none →
        (r.minutes ≠ none ∨ r.minutesExclude ≠ none) →
        setupImpliedValues r = { r with seconds := some [{ low := 0, high := 0 }] }) ∧
    (∀ r : RuleGroup, r.seconds = none → r.secondsExclude = none →
        r.minutes = none → r.minutesExclude = none →
        (r.hours ≠ none ∨ r.hoursExclude ≠ none) →
        setupImpliedValues r = { r with seconds := some [{ low := 0, high := 0 }],
                                        minutes := some [{ low := 0, high := 0 }] }) ∧
    (∀ r : RuleGroup, r.seconds = none → r.secondsExclude = none →
        r.minutes = none → r.minutesExclude = none →
        r.hours = none → r.hoursExclude = none →
        setupImpliedValues r = { r with seconds := some [{ low := 0, high := 0 }],
                                        minutes := some [{ low := 0, high := 0 }],
                                        hours := some [{ low := 0, high := 0 }] }) ∧
    (∀ r : RuleGroup, r.seconds ≠ none → setupImpliedValues r = r) ∧
    compileSchedule "date(1/1)" =
      .ok [{ seconds := some [{ low := 0, high := 0 }],
             minutes := some [{ low := 0, high := 0 }],
             hours := some [{ low := 0, high := 0 }],
             dates := some [{ low := ⟨0, 1⟩, high := ⟨0, 1⟩ }] }] := by
  refine ⟨?_, ?_, ?_, ?_, rfl⟩
  · intro r h1 h2 h3
    rcases h3 with h3 | h3 <;>
      simp [setupImpliedValues, h1, h2, Option.isSome_iff_ne_none, h3]
  · intro r h1 h2 h3 h4 h5
    rcases h5 with h5 | h5 <;>
      simp [setupImpliedValues, h1, h2, h3, h4, Option.isSome_iff_ne_none, h5]
  · intro r h1 h2 h3 h4 h5 h6
    simp [setupImpliedValues, h1, h2, h3, h4, h5, h6]
  · intro r h1
    simp [setupImpliedValues, Option.isSome_iff_ne_none, h1]

/-- C7 witness: a group with only minutes set gets its seconds
defaulted, and one with seconds set is unchanged. -/
theorem c7_implied_defaults_witness :
    setupImpliedValues { minutes := some [{ low := 30, high := 30 }] } =
      { seconds := some [{ low := 0, high := 0 }],
        minutes := some [{ low := 30, high := 30 }] } ∧
    setupImpliedValues { seconds := some [{ low := 7, high := 7 }] } =
      { seconds := some [{ low := 7, high := 7 }] } :=
  ⟨c7_implied_defaults.1 { minutes := some [{ low := 30, high := 30 }] }
      rfl rfl (Or.inl (by simp)),
   c7_implied_defaults.2.2.2.1 { seconds := some [{ low := 7, high := 7 }] }
      (by simp)⟩

/-- C8: an argument marked with the exclusion prefix is appended to the
field's exclude list and leaves the main list unchanged, and a
non-excluded argument is appended to the main list and leaves the
exclude list unchanged; hour(9-17, !12) compiles to hours [Range(9,17)]
and hoursExclude [Range(12,12)]. -/
theorem c8_exclusion_lists :
    (∀ (rule : RuleGroup) (pt : PropType) (r : Range Int), pt ≠ .dates →
      (pushNum rule pt true r).mainList pt = rule.mainList pt ∧
      (pushNum rule pt true r).excludeList pt = some ((rule.excludeList pt).getD [] ++ [r]) ∧
      (pushNum rule pt false r).mainList pt = some ((rule.mainList pt).getD [] ++ [r]) ∧
      (pushNum rule pt false r).excludeList pt = rule.excludeList pt) ∧
    compileSchedule "hour(9-17, !12)" =
      .ok [{ seconds := some [{ low := 0, high := 0 }],
             minutes := some [{ low := 0, high := 0 }],
             hours := some [{ low := 9, high := 17 }],
             hoursExclude := some [{ low := 12, high := 12 }] }] := by
  refine ⟨?_, rfl⟩
  intro rule pt r hpt
  cases pt <;> simp_all [pushNum, RuleGroup.mainList, RuleGroup.excludeList]

/-- C8 witness: pushing the excluded hours Range(12,12) into a fresh
group touches only the exclude list. -/
theorem c8_exclusion_lists_witness :
    (pushNum {} .hours true { low := 12, high := 12 }).mainList .hours =
      ({} : RuleGroup).mainList .hours ∧
    (pushNum {} .hours true { low := 12, high := 12 }).excludeList .hours =
      some ((({} : RuleGroup).excludeList .hours).getD [] ++ [{ low := 12, high := 12 }]) ∧
    (pushNum {} .hours false { low := 12, high := 12 }).mainList .hours =
      some ((({} : RuleGroup).mainList .hours).getD [] ++ [{ low := 12, high := 12 }]) ∧
    (pushNum {} .hours false { low := 12, high := 12 }).excludeList .hours =
      ({} : RuleGroup).excludeList .hours :=
  c8_exclusion_lists.1 {} .hours { low := 12, high := 12 } (by decide)

/-- C9 (amended): dom(-1) compiles without a bounds error to
Range(-1,-1); dom(0) raises the zero day-of-month error; and every
day-of-month range with in-bounds ends one of which is zero raises the
zero error.  For a zero end combined with an out-of-bounds end the
Minimum/Maximum error fires first, so the unrestricted claim fails (see
the counterexample). -/
theorem c9_day_of_month_zero :
    (compileSchedule "dom(-1)" =
      .ok [{ seconds := some [{ low := 0, high := 0 }],
             minutes := some [{ low := 0, high := 0 }],
             hours := some [{ low := 0, high := 0 }],
             daysOfMonth := some [{ low := -1, high := -1 }] }]) ∧
    compileSchedule "dom(0)" = .error "Day of month cannot be zero." ∧
    (∀ lo hi : Int, -31 ≤ lo → lo ≤ 31 → -31 ≤ hi → hi ≤ 31 → (lo = 0 ∨ hi = 0) →
      compile [.expr "dom" [.arg ⟨.range lo hi, false, none⟩]] =
        .error "Day of month cannot be zero.") := by
  refine ⟨rfl, rfl, ?_⟩
  intro lo hi h1 h2 h3 h4 hz
  rw [compile_singleGlobal _ _ (by decide)]
  have e1 : toInt32 lo = lo := toInt32_eq_of_small _ (by omega) (by omega)
  have e2 : toInt32 hi = hi := toInt32_eq_of_small _ (by omega) (by omega)
  have hres : resolveName (lowerStr "dom") = some (.daysOfMonth, -31, 31) := rfl
  have c1 : ¬(lo < (-31 : Int) ∨ hi < -31) := by omega
  have c2 : ¬((31 : Int) < hi ∨ (31 : Int) < lo) := by omega
  simp [compileGroup, compileGroupLoop, hres, normalizeArgs, normalizeArg,
    normalizeNumArg, validateAndPush, e1, e2, c1, c2, hz]

/-- C9 witness: the in-bounds range 0-5 raises the zero day-of-month
error. -/
theorem c9_day_of_month_zero_witness :
    compile [.expr "dom" [.arg ⟨.range 0 5, false, none⟩]] =
      .error "Day of month cannot be zero." :=
  c9_day_of_month_zero.2.2 0 5 (by decide) (by decide) (by decide) (by decide)
    (Or.inl rfl)

/-- C9 counterexample: the range 0-32 has a zero low end, but raises the
Maximum error, not the zero day-of-month error, because the bounds
checks run first. -/
theorem c9_zero_with_out_of_bounds_counterexample :
    compileSchedule "dom(0-32)" = .error "Maximum daysOfMonth value is 31" ∧
    ("Maximum daysOfMonth value is 31" : String) ≠ "Day of month cannot be zero." :=
  ⟨rfl, by decide⟩

/-- C10: the exclusion marker immediately followed by the closing
parenthesis, as in hour(!), is accepted: the argument parser consumes
the marker and returns at the parenthesis without emitting an argument,
so the expression parses with an empty argument list and compiles
exactly as hour() does, to the full hours range. -/
theorem c10_dangling_exclusion :
    parseSchedule "hour(!)" = .ok [.expr "hour" []] ∧
    compileSchedule "hour(!)" = compileSchedule "hour()" ∧
    compileSchedule "hour(!)" =
      .ok [{ seconds := some [{ low := 0, high := 0 }],
             minutes := some [{ low := 0, high := 0 }],
             hours := some [{ low := 0, high := 23 }] }] :=
  ⟨rfl, rfl, rfl⟩

end Sch
